import Mathlib

/-
Shallow embedding of the figment2 provider for Cloudflare Worker
environment bindings (src/src/lib.rs) together with proofs of the
specified properties.

Modelling choices, recorded once here:
  - A binding value (Rust worker Var or Secret) is modelled by its string
    representation: the Rust code immediately applies to_string to the
    looked-up value, so the store is a map from names to strings.
  - A fallible lookup (Rust Result) is an Except with a String payload;
    the Rust method ok() is Except.toOption.
  - The figment2 Dict (a BTreeMap from String to Value, where only string
    Values are ever inserted here) is an association list built by an
    insert that overwrites the value at an existing key, which gives the
    same lookup semantics as collecting pairs into a BTreeMap.
  - Rust str::to_uppercase is modelled character-wise via Char.toUpper;
    field names are declared identifiers (ASCII letters, digits,
    underscores), on which the two agree.
-/

namespace Figment2Cf

/-- Errors returned by the worker environment lookups (worker::Error);
only their presence matters, never their payload. -/
abbrev WorkerError := String

/-- Errors of the figment2 pipeline (figment2::Error); the provider never
constructs one. -/
abbrev Error := String

/-- A figment2 profile tag. figment2 models it as a string wrapper. -/
abbrev Profile := String

/-- The default profile of the figment2 framework. -/
def Profile.Default : Profile := "default"

/-- The figment2 dictionary of configuration values: keys are field names,
values the looked-up strings. -/
abbrev Dict := List (String × String)

/-- Modelled from the spec: the figment2 operation Profile::collect, an
external collaborator not under src. The spec states the output of data is
a single-profile-keyed mapping from the profile tag to the assembled
dictionary. -/
def Profile.collect (p : Profile) (dict : Dict) : List (Profile × Dict) :=
  [(p, dict)]

/-- The Cloudflare Worker environment (worker::Env): two tiers of fallible
lookups, plain variables and secrets, both keyed by a binding name. -/
structure Env where
  var : String → Except WorkerError String
  secret : String → Except WorkerError String

/-- Embeds Rust str::to_uppercase: every character upper-cased, nothing
else (field names are ASCII identifiers, where character-wise uppercasing
coincides with the Unicode mapping). -/
def to_uppercase (s : String) : String :=
  ⟨s.data.map Char.toUpper⟩

/-- The provider: an environment handle, the discovered field names and a
profile tag (struct CloudflareWorkersBindings, src/src/lib.rs lines 73-77). -/
structure CloudflareWorkersBindings where
  env : Env
  fields : List String
  profile : Profile

/-- The two-tier lookup chain of data (src/src/lib.rs lines 110-120): try
the plain-variable tier, convert the error to an option, and only on
failure fall back to the secret tier the same way. -/
def lookup_value (env : Env) (binding : String) : Option String :=
  (Except.toOption (env.var binding)).orElse
    (fun _ => Except.toOption (env.secret binding))

/-- The body of the filter_map closure in data (src/src/lib.rs lines
108-121): derive the binding name, run the two-tier lookup, and on success
emit a pair keyed by the original field name. -/
def entryOf (env : Env) (field : String) : Option (String × String) :=
  let binding := to_uppercase field
  (lookup_value env binding).map (fun value => (field, value))

/-- Insert into a Dict, overwriting the value stored at an existing key;
this is the key semantics of inserting into the BTreeMap behind Dict. -/
def dictInsert : Dict → String → String → Dict
  | [], k, v => [(k, v)]
  | e :: rest, k, v =>
    if e.1 = k then (k, v) :: rest else e :: dictInsert rest k v

/-- Collect a sequence of pairs into a Dict, later pairs overwriting
earlier ones at the same key (collect into a BTreeMap). -/
def dictCollect (entries : List (String × String)) : Dict :=
  entries.foldl (fun d e => dictInsert d e.1 e.2) []

/-- Lookup in a Dict. -/
def dict_get : Dict → String → Option String
  | [], _ => none
  | e :: rest, k => if e.1 = k then some e.2 else dict_get rest k

/-- The dictionary assembled by data (the let binding dict of
src/src/lib.rs lines 105-123): filter_map of entryOf over the stored
fields, collected into a Dict. -/
def dataDict (p : CloudflareWorkersBindings) : Dict :=
  dictCollect (p.fields.filterMap (entryOf p.env))

/-- The data operation of the Provider impl (src/src/lib.rs lines
104-126): assemble the dictionary and file it under the current profile,
always returning Ok. -/
def data (p : CloudflareWorkersBindings) :
    Except Error (List (Profile × Dict)) :=
  Except.ok (Profile.collect p.profile (dataDict p))

/-- The builder that replaces the profile tag (method profile of
src/src/lib.rs lines 93-96; renamed here because the structure field
already carries the name). -/
def withProfile (p : CloudflareWorkersBindings) (profile : Profile) :
    CloudflareWorkersBindings :=
  { p with profile := profile }

/-- The metadata operation (src/src/lib.rs lines 100-102). -/
def metadata (_ : CloudflareWorkersBindings) : String :=
  "Cloudflare Worker environment"

/-- The shape of a target configuration type as its Deserialize machinery
presents it: a structured record with declared field names, or one of the
other shapes (bare scalar, sequence, map, tuple, enum), which the
deserializer of src/src/lib.rs forwards to deserialize_any. -/
inductive Shape where
  | record : List String → Shape
  | scalar : Shape
  | sequence : Shape
  | mapping : Shape
  | tuple : Shape
  | enumeration : Shape
deriving DecidableEq

/-- The stand-in deserializer of field_names (struct Extractor,
src/src/lib.rs line 133): its state is the captured field-name list. -/
structure Extractor where
  captured : List String
deriving DecidableEq

/-- deserialize_any of the Extractor (src/src/lib.rs lines 138-140): fail
without capturing anything; every non-struct entry point is forwarded
here (src/src/lib.rs lines 152-156). -/
def Extractor.deserialize_any (e : Extractor) :
    Extractor × Except String Unit :=
  (e, Except.error "field extraction only")

/-- deserialize_struct of the Extractor (src/src/lib.rs lines 142-150):
capture the announced field names, then fail by design. -/
def Extractor.deserialize_struct (_ : Extractor) (fields : List String) :
    Extractor × Except String Unit :=
  ({ captured := fields }, Except.error "field extraction only")

/-- Modelled from the spec: the external Deserialize machinery of the
target shape (the derived T::deserialize, not under src). Per the spec, a
structured record announces its declared field names to deserialize_struct;
every other shape (primitives, sequences, maps, tuples, enums) hits an
entry point the Extractor forwards to deserialize_any. -/
def Shape.deserialize (s : Shape) (e : Extractor) :
    Extractor × Except String Unit :=
  match s with
  | .record fields => e.deserialize_struct fields
  | _ => e.deserialize_any

/-- field_names (src/src/lib.rs lines 132-162): run the dummy
deserialization against a fresh Extractor, discard the always-error
result, and return whatever was captured. -/
def field_names (s : Shape) : List String :=
  (Shape.deserialize s { captured := [] }).1.captured

/-- from_struct (src/src/lib.rs lines 83-89): discover the fields of the
target shape and start on the default profile. -/
def from_struct (s : Shape) (env : Env) : CloudflareWorkersBindings :=
  { env := env, fields := field_names s, profile := Profile.Default }

/-- Which store tier a lookup hits. -/
inductive Tier where
  | var : Tier
  | secret : Tier
deriving DecidableEq

/-- Instrumented reading of the lookup chain of data for one field
(src/src/lib.rs lines 109-120): the plain-variable tier is always queried
under the derived binding name, and the secret tier is queried, under the
same name, only when that first lookup failed (or_else is lazy). -/
def queriesOf (env : Env) (field : String) : List (Tier × String) :=
  let binding := to_uppercase field
  match env.var binding with
  | Except.ok _ => [(Tier.var, binding)]
  | Except.error _ => [(Tier.var, binding), (Tier.secret, binding)]

/-- All store queries one invocation of data issues: the per-field queries
in stored field order (src/src/lib.rs lines 105-123). -/
def dataQueries (p : CloudflareWorkersBindings) : List (Tier × String) :=
  (p.fields.map (queriesOf p.env)).flatten

/-- The value the last pair with a given key carries, if any: the value
surviving a collect in which later pairs overwrite earlier ones. -/
def findLastVal : List (String × String) → String → Option String
  | [], _ => none
  | e :: rest, k =>
    match findLastVal rest k with
    | some v => some v
    | none => if e.1 = k then some e.2 else none

/-- Concrete store: DATABASE_URL is populated in both tiers, with
different values, so that the precedence of the tiers is observable. -/
def envBoth : Env :=
  { var := fun n =>
      if n = "DATABASE_URL" then Except.ok "plainValue"
      else Except.error "binding not found",
    secret := fun n =>
      if n = "DATABASE_URL" then Except.ok "secretValue"
      else Except.error "binding not found" }

/-- Concrete store: only the secret tier holds API_KEY. -/
def envSecretOnly : Env :=
  { var := fun _ => Except.error "binding not found",
    secret := fun n =>
      if n = "API_KEY" then Except.ok "shh"
      else Except.error "binding not found" }

/-- Concrete store with no bindings at all. -/
def envEmpty : Env :=
  { var := fun _ => Except.error "binding not found",
    secret := fun _ => Except.error "binding not found" }

/-- Concrete store failing everywhere with one kind of error payload. -/
def envErrA : Env :=
  { var := fun _ => Except.error "binding not found",
    secret := fun _ => Except.error "binding not found" }

/-- Concrete store failing everywhere with different error payloads. -/
def envErrB : Env :=
  { var := fun _ => Except.error "permission denied",
    secret := fun _ => Except.error "malformed secret payload" }

/-! Helper lemmas about the Dict operations and the assembled dictionary. -/

/-- Looking up the key just inserted yields the inserted value. -/
theorem dict_get_dictInsert_self (d : Dict) (k v : String) :
    dict_get (dictInsert d k v) k = some v := by
  induction d with
  | nil => simp [dictInsert, dict_get]
  | cons e rest ih =>
    by_cases h : e.1 = k
    · simp [dictInsert, dict_get, h]
    · simp [dictInsert, dict_get, h, ih]

/-- Inserting at one key leaves lookups at other keys unchanged. -/
theorem dict_get_dictInsert_ne (d : Dict) {k k' : String} (v : String)
    (h : k' ≠ k) : dict_get (dictInsert d k v) k' = dict_get d k' := by
  induction d with
  | nil => simp [dictInsert, dict_get, Ne.symm h]
  | cons e rest ih =>
    by_cases he : e.1 = k
    · simp [dictInsert, dict_get, he, Ne.symm h]
    · simp [dictInsert, dict_get, he, ih]

/-- Folding inserts over an accumulator: a lookup sees the last inserted
value at the key, and falls back to the accumulator. -/
theorem dict_get_foldl (entries : List (String × String)) :
    ∀ (d : Dict) (k : String),
      dict_get (entries.foldl (fun d e => dictInsert d e.1 e.2) d) k =
        match findLastVal entries k with
        | some v => some v
        | none => dict_get d k := by
  induction entries with
  | nil => intro d k; rfl
  | cons e rest ih =>
    intro d k
    rw [List.foldl_cons, ih]
    by_cases h : e.1 = k
    · cases hrest : findLastVal rest k with
      | some v => simp [findLastVal, hrest]
      | none =>
        simp only [findLastVal, hrest, h, if_pos]
        rw [← h, dict_get_dictInsert_self]
    · cases hrest : findLastVal rest k with
      | some v => simp [findLastVal, hrest]
      | none =>
        have hne : k ≠ e.1 := fun hk => h hk.symm
        simp only [findLastVal, hrest, h, if_neg]
        exact dict_get_dictInsert_ne d e.2 hne

/-- entryOf succeeds exactly when the two-tier lookup does, and then emits
the pair of the original field name and the looked-up value. -/
theorem entryOf_eq (env : Env) (field : String) :
    entryOf env field =
      (lookup_value env (to_uppercase field)).map (fun v => (field, v)) :=
  rfl

/-- Over the entries that data emits, the surviving value at a field name
is exactly that field's two-tier lookup, when the field is listed. -/
theorem findLastVal_filterMap_entryOf (env : Env) (f : String) :
    ∀ fields : List String,
      findLastVal (fields.filterMap (entryOf env)) f =
        if f ∈ fields then lookup_value env (to_uppercase f) else none := by
  intro fields
  induction fields with
  | nil => simp [findLastVal]
  | cons g rest ih =>
    cases hg : lookup_value env (to_uppercase g) with
    | none =>
      have hent : entryOf env g = none := by simp [entryOf_eq, hg]
      rw [List.filterMap_cons, hent, ih]
      by_cases hfg : f = g
      · subst hfg
        by_cases hfr : f ∈ rest <;> simp [hfr, hg]
      · simp [List.mem_cons, hfg]
    | some v =>
      have hent : entryOf env g = some (g, v) := by simp [entryOf_eq, hg]
      rw [List.filterMap_cons, hent]
      show (match findLastVal (rest.filterMap (entryOf env)) f with
        | some w => some w
        | none => if g = f then some v else none) = _
      rw [ih]
      by_cases hfg : f = g
      · subst hfg
        by_cases hfr : f ∈ rest
        · simp [hfr, hg]
        · simp [hfr, hg]
      · have hgf : ¬g = f := fun h => hfg h.symm
        by_cases hfr : f ∈ rest
        · simp only [hfr, if_pos, List.mem_cons, hfg, false_or]
          cases lookup_value env (to_uppercase f) with
          | some w => rfl
          | none => simp [hgf]
        · simp [hfr, hfg, hgf, List.mem_cons]

/-- Master lemma: a lookup in the dictionary data assembles equals the
two-tier lookup of the field, when the field is listed, and misses
otherwise. -/
theorem dict_get_dataDict (p : CloudflareWorkersBindings) (f : String) :
    dict_get (dataDict p) f =
      if f ∈ p.fields then lookup_value p.env (to_uppercase f) else none := by
  show dict_get
      ((p.fields.filterMap (entryOf p.env)).foldl
        (fun d e => dictInsert d e.1 e.2) []) f = _
  rw [dict_get_foldl, findLastVal_filterMap_entryOf]
  by_cases h : f ∈ p.fields
  · simp only [h, if_pos]
    cases lookup_value p.env (to_uppercase f) <;> rfl
  · simp [h, dict_get]

/-- An entry of a Dict after an insert is the inserted pair or an entry of
the original Dict. -/
theorem mem_dictInsert {e : String × String} {d : Dict} {k v : String}
    (h : e ∈ dictInsert d k v) : e = (k, v) ∨ e ∈ d := by
  induction d with
  | nil => simpa [dictInsert] using h
  | cons e' rest ih =>
    by_cases he : e'.1 = k
    · rw [dictInsert, if_pos he] at h
      rcases List.mem_cons.mp h with h | h
      · exact Or.inl h
      · exact Or.inr (List.mem_cons_of_mem e' h)
    · rw [dictInsert, if_neg he] at h
      rcases List.mem_cons.mp h with h | h
      · exact Or.inr (h ▸ List.mem_cons_self e' rest)
      · rcases ih h with h | h
        · exact Or.inl h
        · exact Or.inr (List.mem_cons_of_mem e' h)

/-- An entry of a fold of inserts is an entry of the accumulator or one of
the folded pairs. -/
theorem mem_foldl_dictInsert {e : String × String}
    (entries : List (String × String)) :
    ∀ d : Dict, e ∈ entries.foldl (fun d e => dictInsert d e.1 e.2) d →
      e ∈ d ∨ e ∈ entries := by
  induction entries with
  | nil => exact fun d h => Or.inl h
  | cons a rest ih =>
    intro d h
    rw [List.foldl_cons] at h
    rcases ih (dictInsert d a.1 a.2) h with h | h
    · rcases mem_dictInsert h with h | h
      · exact Or.inr (h ▸ List.mem_cons_self a rest)
      · exact Or.inl h
    · exact Or.inr (List.mem_cons_of_mem a h)

/-- An entry of a collected Dict is one of the collected pairs. -/
theorem mem_dictCollect {e : String × String}
    {entries : List (String × String)} (h : e ∈ dictCollect entries) :
    e ∈ entries := by
  rcases mem_foldl_dictInsert entries [] h with h | h
  · cases h
  · exact h

/-- A key of a Dict after an insert is the inserted key or a key of the
original Dict. -/
theorem mem_keys_dictInsert {a : String} {d : Dict} {k v : String}
    (h : a ∈ (dictInsert d k v).map Prod.fst) :
    a = k ∨ a ∈ d.map Prod.fst := by
  rcases List.mem_map.mp h with ⟨e, he, hae⟩
  rcases mem_dictInsert he with h' | h'
  · exact Or.inl (by rw [← hae, h'])
  · exact Or.inr (hae ▸ List.mem_map_of_mem Prod.fst h')

/-- Inserting preserves distinctness of the keys of a Dict. -/
theorem nodup_keys_dictInsert {d : Dict} {k v : String}
    (h : (d.map Prod.fst).Nodup) :
    ((dictInsert d k v).map Prod.fst).Nodup := by
  induction d with
  | nil => simp [dictInsert]
  | cons e rest ih =>
    rw [List.map_cons, List.nodup_cons] at h
    by_cases he : e.1 = k
    · rw [dictInsert, if_pos he, List.map_cons, List.nodup_cons]
      exact ⟨he ▸ h.1, h.2⟩
    · rw [dictInsert, if_neg he, List.map_cons, List.nodup_cons]
      refine ⟨fun hmem => ?_, ih h.2⟩
      rcases mem_keys_dictInsert hmem with h' | h'
      · exact he h'
      · exact h.1 h'

/-- The keys of a collected Dict are pairwise distinct: the Dict holds at
most one entry per key. -/
theorem nodup_keys_dictCollect (entries : List (String × String)) :
    ((dictCollect entries).map Prod.fst).Nodup := by
  suffices hgen : ∀ d : Dict, (d.map Prod.fst).Nodup →
      (((entries.foldl (fun d e => dictInsert d e.1 e.2) d)).map
        Prod.fst).Nodup from
    hgen [] (by simp)
  induction entries with
  | nil => exact fun d h => h
  | cons a rest ih =>
    intro d h
    rw [List.foldl_cons]
    exact ih (dictInsert d a.1 a.2) (nodup_keys_dictInsert h)

/-- Every query of one field targets exactly the upper-cased field name. -/
theorem queriesOf_name (env : Env) (f : String) :
    ∀ q ∈ queriesOf env f, q.2 = to_uppercase f := by
  intro q hq
  rw [queriesOf] at hq
  cases henv : env.var (to_uppercase f) with
  | ok v =>
    rw [henv] at hq
    simp at hq
    simp [hq]
  | error err =>
    rw [henv] at hq
    simp at hq
    rcases hq with hq | hq <;> simp [hq]

/-! The claims. -/

/-- C1: for every listed field, data performs the two-tier lookup in a
fixed order, plain-variable tier first and secret tier only on failure;
when the binding is present in both tiers, the recorded value is the
plain-variable value. -/
theorem data_two_tier_first_success_wins (env : Env) (fields : List String)
    (prof : Profile) (f : String) (hf : f ∈ fields) :
    (∀ v, env.var (to_uppercase f) = Except.ok v →
      dict_get (dataDict ⟨env, fields, prof⟩) f = some v) ∧
    (∀ err v, env.var (to_uppercase f) = Except.error err →
      env.secret (to_uppercase f) = Except.ok v →
      dict_get (dataDict ⟨env, fields, prof⟩) f = some v) := by
  constructor
  · intro v hv
    rw [dict_get_dataDict]
    simp [hf, lookup_value, hv, Except.toOption]
  · intro err v hvn hs
    rw [dict_get_dataDict]
    simp [hf, lookup_value, hvn, hs, Except.toOption, Option.orElse]

/-- Witness for C1: DATABASE_URL is in both tiers of envBoth and the
plain-variable value survives. -/
theorem data_two_tier_first_success_wins_witness :
    "database_url" ∈ ["database_url"] ∧
    dict_get (dataDict ⟨envBoth, ["database_url"], Profile.Default⟩)
      "database_url" = some "plainValue" :=
  ⟨by decide,
    (data_two_tier_first_success_wins envBoth ["database_url"]
      Profile.Default "database_url" (by decide)).1 "plainValue" rfl⟩

/-- C2: the lookup key for both tiers is exactly the field name with every
character upper-cased and nothing else (database_url gives DATABASE_URL,
databaseURL gives DATABASEURL), and a successful lookup is recorded under
the original, non-upper-cased field name. -/
theorem data_binding_name_pure_uppercase (env : Env) (f : String) :
    (∀ q ∈ queriesOf env f, q.2 = to_uppercase f) ∧
    to_uppercase "database_url" = "DATABASE_URL" ∧
    to_uppercase "databaseURL" = "DATABASEURL" ∧
    (∀ v, lookup_value env (to_uppercase f) = some v →
      entryOf env f = some (f, v)) := by
  refine ⟨queriesOf_name env f, by decide, by decide, ?_⟩
  intro v hv
  simp [entryOf_eq, hv]

/-- Witness for C2: the one query envBoth answers for database_url targets
DATABASE_URL, and the entry is recorded under database_url. -/
theorem data_binding_name_pure_uppercase_witness :
    (Tier.var, "DATABASE_URL") ∈ queriesOf envBoth "database_url" ∧
    (Tier.var, "DATABASE_URL").2 = to_uppercase "database_url" ∧
    entryOf envBoth "database_url" = some ("database_url", "plainValue") :=
  ⟨by decide,
    (data_binding_name_pure_uppercase envBoth "database_url").1
      (Tier.var, "DATABASE_URL") (by decide),
    (data_binding_name_pure_uppercase envBoth "database_url").2.2.2
      "plainValue" (by decide)⟩

/-- C3: a field whose lookups fail in both tiers is omitted entirely from
the output dictionary: the lookup misses and no entry carries that key. -/
theorem data_omits_missing_fields (env : Env) (fields : List String)
    (prof : Profile) (f : String)
    (hv : Except.toOption (env.var (to_uppercase f)) = none)
    (hs : Except.toOption (env.secret (to_uppercase f)) = none) :
    dict_get (dataDict ⟨env, fields, prof⟩) f = none ∧
    ∀ e ∈ dataDict ⟨env, fields, prof⟩, e.1 ≠ f := by
  have hlv : lookup_value env (to_uppercase f) = none := by
    simp [lookup_value, hv, hs, Option.orElse]
  constructor
  · rw [dict_get_dataDict]
    by_cases hf : f ∈ fields <;> simp [hf, hlv]
  · intro e he hef
    simp only [dataDict] at he
    rcases List.mem_filterMap.mp (mem_dictCollect he) with ⟨g, _, hge⟩
    rw [entryOf_eq] at hge
    rcases Option.map_eq_some'.mp hge with ⟨v, hvl, hee⟩
    rw [← hee] at hef
    rw [show g = f from hef] at hvl
    rw [hvl] at hlv
    cases hlv

/-- Witness for C3: missing_field resolves in neither tier of envEmpty and
its lookup in the output dictionary misses. -/
theorem data_omits_missing_fields_witness :
    Except.toOption (envEmpty.var (to_uppercase "missing_field")) = none ∧
    Except.toOption (envEmpty.secret (to_uppercase "missing_field"))
      = none ∧
    dict_get (dataDict ⟨envEmpty, ["missing_field"], Profile.Default⟩)
      "missing_field" = none :=
  ⟨by decide, by decide,
    (data_omits_missing_fields envEmpty ["missing_field"] Profile.Default
      "missing_field" (by decide) (by decide)).1⟩

/-- C4: data is total and surfaces no error of its own: it returns Ok for
every provider state, and any two stores whose lookups fail or succeed
alike, whatever the error payloads, produce identical results, so every
kind of lookup failure is treated uniformly as not found. -/
theorem data_total_and_uniform_failures :
    (∀ p : CloudflareWorkersBindings, ∃ m, data p = Except.ok m) ∧
    (∀ env env' : Env, ∀ fields : List String, ∀ prof : Profile,
      (∀ n, Except.toOption (env.var n) = Except.toOption (env'.var n)) →
      (∀ n, Except.toOption (env.secret n)
        = Except.toOption (env'.secret n)) →
      data ⟨env, fields, prof⟩ = data ⟨env', fields, prof⟩) := by
  constructor
  · exact fun p => ⟨_, rfl⟩
  · intro env env' fields prof hvar hsec
    have hent : ∀ g, entryOf env g = entryOf env' g := by
      intro g
      rw [entryOf_eq, entryOf_eq, lookup_value, lookup_value, hvar, hsec]
    have harg : fields.filterMap (entryOf env)
        = fields.filterMap (entryOf env') :=
      List.filterMap_congr (fun g _ => hent g)
    simp [data, dataDict, harg]

/-- Witness for C4: two stores that fail everywhere with different error
payloads produce identical data results. -/
theorem data_total_and_uniform_failures_witness :
    data ⟨envErrA, ["api_key"], Profile.Default⟩
      = data ⟨envErrB, ["api_key"], Profile.Default⟩ :=
  data_total_and_uniform_failures.2 envErrA envErrB ["api_key"]
    Profile.Default (fun _ => rfl) (fun _ => rfl)

/-- C5: every key of the dictionary data assembles is a member of the
stored field-name list. -/
theorem data_keys_subset_fields (env : Env) (fields : List String)
    (prof : Profile) :
    ∀ e ∈ dataDict ⟨env, fields, prof⟩, e.1 ∈ fields := by
  intro e he
  simp only [dataDict] at he
  rcases List.mem_filterMap.mp (mem_dictCollect he) with ⟨g, hg, hge⟩
  rw [entryOf_eq] at hge
  rcases Option.map_eq_some'.mp hge with ⟨v, _, hee⟩
  rw [← hee]
  exact hg

/-- Witness for C5: the one entry assembled from envBoth has its key in
the field list. -/
theorem data_keys_subset_fields_witness :
    ("database_url", "plainValue")
      ∈ dataDict ⟨envBoth, ["database_url"], Profile.Default⟩ ∧
    ("database_url", "plainValue").1 ∈ ["database_url"] :=
  ⟨by decide,
    data_keys_subset_fields envBoth ["database_url"] Profile.Default
      ("database_url", "plainValue") (by decide)⟩

/-- C6: every name one invocation of data passes to either lookup tier is
the upper-cased form of some stored field; no name outside that derived
set is ever queried. -/
theorem data_queries_only_derived_names (env : Env) (fields : List String)
    (prof : Profile) :
    ∀ q ∈ dataQueries ⟨env, fields, prof⟩,
      ∃ f ∈ fields, q.2 = to_uppercase f := by
  intro q hq
  simp only [dataQueries] at hq
  rcases List.mem_flatten.mp hq with ⟨l, hl, hql⟩
  rcases List.mem_map.mp hl with ⟨f, hf, rfl⟩
  exact ⟨f, hf, queriesOf_name env f q hql⟩

/-- Witness for C6: the secret-tier query for the field other targets
OTHER, the upper-cased form of a listed field. -/
theorem data_queries_only_derived_names_witness :
    (Tier.secret, "OTHER")
      ∈ dataQueries ⟨envBoth, ["database_url", "other"], Profile.Default⟩ ∧
    ∃ f ∈ ["database_url", "other"],
      (Tier.secret, "OTHER").2 = to_uppercase f :=
  ⟨by decide,
    data_queries_only_derived_names envBoth ["database_url", "other"]
      Profile.Default (Tier.secret, "OTHER") (by decide)⟩

/-- C7: the profile builder replaces only the profile tag and returns the
provider; the field list, the environment handle and the assembled
dictionary are unchanged, and data files that same dictionary under the
new profile key. -/
theorem profile_builder_only_moves_profile (p : CloudflareWorkersBindings)
    (prof : Profile) :
    (withProfile p prof).profile = prof ∧
    (withProfile p prof).fields = p.fields ∧
    (withProfile p prof).env = p.env ∧
    dataDict (withProfile p prof) = dataDict p ∧
    data (withProfile p prof)
      = Except.ok (Profile.collect prof (dataDict p)) :=
  ⟨rfl, rfl, rfl, rfl, rfl⟩

/-- C8: field discovery never raises: a zero-field record and every
non-record shape yield the empty field list, and a provider built over an
empty field list returns the empty output dictionary. -/
theorem field_names_degrades_to_empty :
    field_names (Shape.record []) = [] ∧
    (∀ s : Shape, (∀ fs : List String, s ≠ Shape.record fs) →
      field_names s = []) ∧
    (∀ s : Shape, ∀ env : Env, field_names s = [] →
      data (from_struct s env)
        = Except.ok [(Profile.Default, [])]) := by
  refine ⟨rfl, ?_, ?_⟩
  · intro s hs
    cases s with
    | record fs => exact absurd rfl (hs fs)
    | scalar => rfl
    | sequence => rfl
    | mapping => rfl
    | tuple => rfl
    | enumeration => rfl
  · intro s env hempty
    simp [data, from_struct, dataDict, hempty, dictCollect,
      Profile.collect]

/-- Witness for C8: a bare scalar shape yields no fields and an empty
output dictionary under the default profile. -/
theorem field_names_degrades_to_empty_witness :
    field_names Shape.scalar = [] ∧
    data (from_struct Shape.scalar envEmpty)
      = Except.ok [(Profile.Default, [])] :=
  ⟨field_names_degrades_to_empty.2.1 Shape.scalar
      (fun _ h => Shape.noConfusion h),
    field_names_degrades_to_empty.2.2 Shape.scalar envEmpty
      (field_names_degrades_to_empty.2.1 Shape.scalar
        (fun _ h => Shape.noConfusion h))⟩

/-- C9: data returns exactly one profile entry, keyed by the current
profile tag; when no lookup succeeds that entry is still present and maps
to the empty dictionary. -/
theorem data_single_profile_entry :
    (∀ p : CloudflareWorkersBindings,
      data p = Except.ok [(p.profile, dataDict p)]) ∧
    (∀ env : Env, ∀ fields : List String, ∀ prof : Profile,
      (∀ n, Except.toOption (env.var n) = none) →
      (∀ n, Except.toOption (env.secret n) = none) →
      data ⟨env, fields, prof⟩ = Except.ok [(prof, [])]) := by
  constructor
  · exact fun p => rfl
  · intro env fields prof hvar hsec
    have hent : ∀ g, entryOf env g = none := by
      intro g
      simp [entryOf_eq, lookup_value, hvar, hsec, Option.orElse]
    have harg : fields.filterMap (entryOf env) = [] :=
      List.filterMap_eq_nil_iff.mpr (fun g _ => hent g)
    simp [data, dataDict, harg, dictCollect, Profile.collect]

/-- Witness for C9: over the empty store the staging profile key is still
present and maps to the empty dictionary. -/
theorem data_single_profile_entry_witness :
    data ⟨envEmpty, ["api_base_url"], "staging"⟩
      = Except.ok [("staging", [])] :=
  data_single_profile_entry.2 envEmpty ["api_base_url"] "staging"
    (fun _ => rfl) (fun _ => rfl)

/-- C10: even when the stored field list repeats a name, the assembled
dictionary holds at most one entry per key, and the surviving entry for a
listed name carries exactly the two-tier lookup of that name. -/
theorem data_duplicate_fields_single_entry (env : Env)
    (fields : List String) (prof : Profile) (f : String)
    (hf : f ∈ fields) :
    ((dataDict ⟨env, fields, prof⟩).map Prod.fst).Nodup ∧
    dict_get (dataDict ⟨env, fields, prof⟩) f
      = lookup_value env (to_uppercase f) := by
  constructor
  · simp only [dataDict]
    exact nodup_keys_dictCollect _
  · rw [dict_get_dataDict]
    simp [hf]

/-- Witness for C10: with api_key listed twice, the keys of the assembled
dictionary are still distinct and the surviving entry is the secret-tier
value. -/
theorem data_duplicate_fields_single_entry_witness :
    "api_key" ∈ ["api_key", "api_key"] ∧
    ((dataDict ⟨envSecretOnly, ["api_key", "api_key"],
      Profile.Default⟩).map Prod.fst).Nodup ∧
    dict_get (dataDict ⟨envSecretOnly, ["api_key", "api_key"],
      Profile.Default⟩) "api_key"
      = lookup_value envSecretOnly (to_uppercase "api_key") :=
  ⟨by decide,
    (data_duplicate_fields_single_entry envSecretOnly
      ["api_key", "api_key"] Profile.Default "api_key" (by decide)).1,
    (data_duplicate_fields_single_entry envSecretOnly
      ["api_key", "api_key"] Profile.Default "api_key" (by decide)).2⟩

end Figment2Cf
